import Mathlib

/-!
Verification of `neural_network.py` from Machine-Learning-From-Scratch.

The core under `src/` is `DenseLayer` and `NeuralNetwork` (forward, update,
train).  Their collaborators (`ml_array.MLArray`, `optimizers`, `losses`,
`activation`, `initializers`) are part of the repository but their sources
are not available here, so they are modelled from the specification's
recorded contracts; every such definition carries a doc comment starting
with `Modelled from the spec:`.

Python floats are abstracted as exact integers (no claim here depends on the numeric domain); object identity is
modelled by explicit allocation counters.
-/

namespace NNFS

/-- Numeric payloads: matrices as lists of rows of integers. -/
abbrev Mat := List (List ℤ)

/-- Number of rows of a matrix. -/
def rowsOf (m : Mat) : Nat := m.length

/-- Number of columns of a matrix (length of the first row). -/
def colsOf (m : Mat) : Nat := (m.headD []).length

/-- A matrix is rectangular when every row has the common column count. -/
def isRect (m : Mat) : Bool := m.all (fun r => r.length == colsOf m)

/-- Dot product of two equally long rows. -/
def dot (u v : List ℤ) : ℤ := (List.zipWith (fun a b => a * b) u v).sum

/-- Transpose of a matrix (row list to column list). -/
def mtranspose (m : Mat) : Mat :=
  (List.range (colsOf m)).map (fun j => m.map (fun r => r.getD j 0))

/-- Raw matrix product (no shape check). -/
def matmulD (a b : Mat) : Mat :=
  a.map (fun row => (mtranspose b).map (fun col => dot row col))

/-- Elementwise sum of two same-shaped matrices. -/
def addD (a b : Mat) : Mat :=
  List.zipWith (fun r s => List.zipWith (fun x y => x + y) r s) a b

/-- Row-broadcast sum: add the single row of `b` to every row of `a`. -/
def addRow (a b : Mat) : Mat :=
  a.map (fun r => List.zipWith (fun x y => x + y) r (b.headD []))

/-- Zero matrix of the same shape as `m`. -/
def zerosLike (m : Mat) : Mat := m.map (fun r => r.map (fun _ => (0 : ℤ)))

/-- Faults the core can surface: shape mismatches raised by the array
ops or the loss, and Python's `ZeroDivisionError` from `% 0`. -/
inductive Fault where
  | shapeMismatch : Fault
  | divisionByZero : Fault
deriving DecidableEq, Repr

/-- Modelled from the spec: checked matrix multiplication of the
Differentiable Array collaborator; dimensions must conform, otherwise a
shape-incompatibility fault is raised. -/
def matmulCheck (a b : Mat) : Except Fault Mat :=
  if isRect a && isRect b && (colsOf a == rowsOf b) then .ok (matmulD a b)
  else .error Fault.shapeMismatch

/-- Modelled from the spec: checked (broadcast) add of the Differentiable
Array collaborator; same shape, or a single-row right operand broadcast
over the rows of the left one, otherwise a shape fault. -/
def addCheck (a b : Mat) : Except Fault Mat :=
  if isRect a && isRect b && (rowsOf a == rowsOf b) && (colsOf a == colsOf b) then
    .ok (addD a b)
  else if isRect a && isRect b && (rowsOf b == 1) && (colsOf b == colsOf a) then
    .ok (addRow a b)
  else .error Fault.shapeMismatch

instance {ε α : Type} [DecidableEq ε] [DecidableEq α] : DecidableEq (Except ε α) :=
  fun a b =>
    match a, b with
    | .ok x, .ok y =>
        if h : x = y then isTrue (by rw [h])
        else isFalse (fun hh => h (by cases hh; rfl))
    | .error x, .error y =>
        if h : x = y then isTrue (by rw [h])
        else isFalse (fun hh => h (by cases hh; rfl))
    | .ok _, .error _ => isFalse (fun hh => Except.noConfusion hh)
    | .error _, .ok _ => isFalse (fun hh => Except.noConfusion hh)

/-- Modelled from the spec: a Differentiable Array.  `data` is the numeric
payload, `grad` the accumulated-gradient slot, `id` the object identity
(allocation number), and `graph` the recorded subgraph, abstracted to the
set of ids of the arrays the value depends on (empty = no recorded
subgraph). -/
structure MLArray where
  data : Mat
  grad : Mat
  id : Nat
  graph : List Nat
deriving DecidableEq, Repr

/-- Modelled from the spec: wrapping raw data yields a zero gradient slot
and an empty recorded subgraph. -/
def mkLeaf (d : Mat) (i : Nat) : MLArray :=
  { data := d, grad := zerosLike d, id := i, graph := [] }

/-- Modelled from the spec: `restart` clears the gradient slot back to
zero and discards the recorded subgraph, leaving the payload unchanged. -/
def MLArray.restart (a : MLArray) : MLArray :=
  { a with grad := zerosLike a.data, graph := [] }

/-- Fresh array produced by a recorded operation: payload `d`, zero
gradient slot, identity `c`, recorded dependence on the ids in `g`. -/
def opNode (d : Mat) (c : Nat) (g : List Nat) : MLArray :=
  { data := d, grad := zerosLike d, id := c, graph := g }

/-- Modelled from the spec: graph-recording matrix multiplication.  The
fresh result depends on both operands (their ids and everything they
depend on); `c` is the allocation counter. -/
def MLArray.matmul (a b : MLArray) (c : Nat) : Except Fault (MLArray × Nat) :=
  match matmulCheck a.data b.data with
  | .error f => .error f
  | .ok d => .ok (opNode d c ((a.id :: a.graph) ++ (b.id :: b.graph)), c + 1)

/-- Modelled from the spec: graph-recording broadcast add. -/
def MLArray.addB (a b : MLArray) (c : Nat) : Except Fault (MLArray × Nat) :=
  match addCheck a.data b.data with
  | .error f => .error f
  | .ok d => .ok (opNode d c ((a.id :: a.graph) ++ (b.id :: b.graph)), c + 1)

/-- A dense layer: weight matrix, bias row, and the activation-function
reference, as stored by `DenseLayer.__init__`.  The activation collaborator
is a pure elementwise map on payloads. -/
structure DenseLayer where
  weights : MLArray
  biases : MLArray
  activation_function : Mat → Mat

/-- Default layer used only as a `getD` fallback in statements. -/
def dfltLayer : DenseLayer :=
  { weights := mkLeaf [] 0, biases := mkLeaf [] 0, activation_function := fun m => m }

/-- `DenseLayer.forward`: `z = input_data @ self.weights + self.biases`,
then the activation function is applied (recording a graph node on `z`).
The layer itself is returned as the method's post-state. -/
def DenseLayer.forward (l : DenseLayer) (c : Nat) (input_data : MLArray) :
    Except Fault (MLArray × DenseLayer × Nat) :=
  match input_data.matmul l.weights c with
  | .error f => .error f
  | .ok (t, c1) =>
      match t.addB l.biases c1 with
      | .error f => .error f
      | .ok (z, c2) =>
          .ok (opNode (l.activation_function z.data) c2 (z.id :: z.graph), l, c2 + 1)

/-- `NeuralNetwork.forward`: pipe the input through every layer in order,
each layer's output becoming the next one's input; the (unchanged) layer
list is returned as the post-state. -/
def netForward (c : Nat) (layers : List DenseLayer) (input_data : MLArray) :
    Except Fault (MLArray × List DenseLayer × Nat) :=
  match layers with
  | [] => .ok (input_data, [], c)
  | l :: rest =>
      match l.forward c input_data with
      | .error f => .error f
      | .ok (x1, l1, c1) =>
          match netForward c1 rest x1 with
          | .error f => .error f
          | .ok (out, rest1, c2) => .ok (out, l1 :: rest1, c2)

/-- External collaborators consumed by `NeuralNetwork.train`, kept
abstract as the spec records them: the loss function (may raise a shape
fault), the reverse-mode gradient produced by `loss.backward()` for a
given participant id, and the optimizer's `update(layer, layer_idx)`
with internal state of type `σ`. -/
structure Collab (σ : Type) where
  lossF : MLArray → MLArray → Except Fault MLArray
  gradOf : MLArray → Nat → Mat
  optU : σ → DenseLayer → Nat → (MLArray × MLArray) × σ

/-- Elementwise gradient accumulation (reverse mode sums, it does not
overwrite). -/
def accum (g h : Mat) : Mat :=
  List.zipWith (fun r s => List.zipWith (fun x y => x + y) r s) g h

/-- The mutable state `train` works on: the training inputs, the layer
list, the optimizer's internal state and the allocation counter. -/
structure TrainState (σ : Type) where
  X : MLArray
  y : MLArray
  layers : List DenseLayer
  opt : σ
  cnt : Nat

/-- Modelled from the spec: `loss.backward()` populates (accumulates
into) the gradient slot of every participating array — `X`, `y` and each
layer's weights and biases — with the collaborator-computed gradient. -/
def backwardStep {σ : Type} (Cb : Collab σ) (lossA : MLArray) (s : TrainState σ) :
    TrainState σ :=
  { s with
    X := { s.X with grad := accum s.X.grad (Cb.gradOf lossA s.X.id) },
    y := { s.y with grad := accum s.y.grad (Cb.gradOf lossA s.y.id) },
    layers := s.layers.map (fun l =>
      { l with
        weights := { l.weights with grad := accum l.weights.grad (Cb.gradOf lossA l.weights.id) },
        biases := { l.biases with grad := accum l.biases.grad (Cb.gradOf lossA l.biases.id) } }) }

/-- `DenseLayer.update`: replace the stored weights and biases with
exactly the pair the optimizer returns for this layer and index. -/
def DenseLayer.update {σ : Type} (Cb : Collab σ) (st : σ) (l : DenseLayer)
    (layer_idx : Nat) : DenseLayer × σ :=
  let r := Cb.optU st l layer_idx
  ({ l with weights := r.1.1, biases := r.1.2 }, r.2)

/-- Events of the per-epoch state machine (reporting is an output
effect, not a state, and is collected separately). -/
inductive Ev where
  | fwd (epoch : Nat)
  | lossE (epoch : Nat)
  | bwd (epoch : Nat)
  | upd (epoch : Nat) (layerIdx : Nat)
  | reset (epoch : Nat)
deriving DecidableEq, Repr

/-- The loop `for idx, layer in enumerate(self.layers): layer.update(self.optimizer, idx)`,
threading optimizer state and recording one update event per call. -/
def updateLayers {σ : Type} (Cb : Collab σ) (e : Nat) :
    List DenseLayer → Nat → σ → List DenseLayer × σ × List Ev
  | [], _, st => ([], st, [])
  | l :: rest, i, st =>
      let p := DenseLayer.update Cb st l i
      let q := updateLayers Cb e rest (i + 1) p.2
      (p.1 :: q.1, q.2.1, Ev.upd e i :: q.2.2)

/-- The reset block of `train`: `X.restart(); y.restart()` and a restart
of every layer's weights and biases. -/
def resetPhase {σ : Type} (s : TrainState σ) : TrainState σ :=
  { s with
    X := s.X.restart,
    y := s.y.restart,
    layers := s.layers.map (fun l =>
      { l with weights := l.weights.restart, biases := l.biases.restart }) }

/-- The progress line `print(f"Epoch {epoch + 1}/{epochs}, Loss: {loss.data}")`. -/
def mkReport (i total : Nat) (d : Mat) : String :=
  "Epoch " ++ toString i ++ "/" ++ toString total ++ ", Loss: " ++ toString d

/-- Canonical event list of one epoch of `train` over `n` layers. -/
def epochEvs (e n : Nat) : List Ev :=
  [Ev.fwd e, Ev.lossE e, Ev.bwd e] ++ (List.range n).map (Ev.upd e) ++ [Ev.reset e]

/-- One epoch of `train` up to (not including) the reporting block:
forward pass, loss, backward, per-layer update, reset, in that order,
aborting on the first fault.  Returns the new state plus the loss
payload, and the state-machine events that ran. -/
def epochCore {σ : Type} (Cb : Collab σ) (e : Nat) (s : TrainState σ) :
    Except Fault (TrainState σ × Mat) × List Ev :=
  match netForward s.cnt s.layers s.X with
  | .error f => (.error f, [Ev.fwd e])
  | .ok (y_pred, _, c1) =>
      match Cb.lossF y_pred s.y with
      | .error f => (.error f, [Ev.fwd e, Ev.lossE e])
      | .ok lossA =>
          let s1 := backwardStep Cb lossA { s with cnt := c1 }
          let q := updateLayers Cb e s1.layers 0 s1.opt
          let s3 := resetPhase { s1 with layers := q.1, opt := q.2.1 }
          (.ok (s3, lossA.data),
           [Ev.fwd e, Ev.lossE e, Ev.bwd e] ++ q.2.2 ++ [Ev.reset e])

/-- One full epoch including the reporting block: `print_every == None`
reports every epoch; otherwise `(epoch+1) % print_every` is computed —
Python raises `ZeroDivisionError` when `print_every` is `0` — and the
report is emitted exactly when the remainder is `0`. -/
def epochStep {σ : Type} (Cb : Collab σ) (total : Nat) (p : Option Nat) (e : Nat)
    (s : TrainState σ) : Except Fault (TrainState σ) × List Ev × List String :=
  match epochCore Cb e s with
  | (.error f, tr) => (.error f, tr, [])
  | (.ok (s3, ld), tr) =>
      match p with
      | none => (.ok s3, tr, [mkReport (e + 1) total ld])
      | some k =>
          if k == 0 then (.error Fault.divisionByZero, tr, [])
          else if (e + 1) % k == 0 then (.ok s3, tr, [mkReport (e + 1) total ld])
          else (.ok s3, tr, [])

/-- The loop `for epoch in range(epochs)`: run the remaining epochs
starting at number `e`, concatenating events and reports, stopping at the
first fault. -/
def trainLoop {σ : Type} (Cb : Collab σ) (total : Nat) (p : Option Nat) :
    Nat → Nat → TrainState σ → Except Fault (TrainState σ) × List Ev × List String
  | 0, _, s => (.ok s, [], [])
  | rem + 1, e, s =>
      match epochStep Cb total p e s with
      | (.error f, tr, rp) => (.error f, tr, rp)
      | (.ok s1, tr, rp) =>
          let q := trainLoop Cb total p rem (e + 1) s1
          (q.1, tr ++ q.2.1, rp ++ q.2.2)

/-- `NeuralNetwork.train(X, y, epochs, print_every)`. -/
def train {σ : Type} (Cb : Collab σ) (p : Option Nat) (epochs : Nat)
    (s : TrainState σ) : Except Fault (TrainState σ) × List Ev × List String :=
  trainLoop Cb epochs p epochs 0 s

/-- Whether the reporting block prints in epoch `e` (well defined only
for `p ≠ some 0`). -/
def reportAt (p : Option Nat) (e : Nat) : Bool :=
  match p with
  | none => true
  | some k => (e + 1) % k == 0

/-- Value of an `Except` when it is `ok`, with a fallback (used only to
state witnesses without spelling out large literals). -/
def okD {ε α : Type} (x : Except ε α) (d : α) : α :=
  match x with
  | .ok v => v
  | .error _ => d

/-- The array's gradient slot is exactly zero and its recorded subgraph
is empty. -/
def MLArray.cleared (a : MLArray) : Prop :=
  a.grad = zerosLike a.data ∧ a.graph = []

/-- All gradient-bearing arrays of the training state are cleared. -/
def TrainState.cleared {σ : Type} (s : TrainState σ) : Prop :=
  s.X.cleared ∧ s.y.cleared ∧
    ∀ l ∈ s.layers, l.weights.cleared ∧ l.biases.cleared

instance (a : MLArray) : Decidable a.cleared :=
  inferInstanceAs (Decidable (_ ∧ _))

instance {σ : Type} (s : TrainState σ) : Decidable s.cleared :=
  inferInstanceAs (Decidable (_ ∧ _ ∧ ∀ l ∈ s.layers, _ ∧ _))

/-- Optimizer state after sequentially updating the given layers starting
at the given index. -/
def optStateSeq {σ : Type} (Cb : Collab σ) : List DenseLayer → Nat → σ → σ
  | [], _, st => st
  | l :: rest, i, st => optStateSeq Cb rest (i + 1) (DenseLayer.update Cb st l i).2

/-- Identity of an optimizer object, for the construction semantics of
`NeuralNetwork.__init__`. -/
abbrev OptId := Nat

/-- Modelled from the spec: the `optimizers.SGD()` instance created once,
when the `NeuralNetwork` class definition is executed, as the default
value of the `optimizer` parameter; allocation number `0`. -/
def sgdDefaultId : OptId := 0

/-- How the `optimizer` argument of `NeuralNetwork.__init__` can be
supplied at a call site. -/
inductive OptArg where
  | omitted : OptArg
  | explicitNone : OptArg
  | given (o : OptId) : OptArg

/-- The fields `__init__` stores (optimizer kept by identity). -/
structure NetObj where
  layers : List DenseLayer
  optimizerId : OptId

/-- `NeuralNetwork.__init__` under Python semantics: an omitted argument
takes the (shared, pre-created) default instance, which is not `None`, so
it is stored as is; an explicit `None` allocates a fresh `SGD()` now;
any other instance is stored as is.  `alloc` is the next free allocation
number, returned updated. -/
def NeuralNetwork.init (alloc : Nat) (layers : List DenseLayer) (a : OptArg) :
    NetObj × Nat :=
  match a with
  | .omitted => ({ layers := layers, optimizerId := sgdDefaultId }, alloc)
  | .explicitNone => ({ layers := layers, optimizerId := alloc }, alloc + 1)
  | .given o => ({ layers := layers, optimizerId := o }, alloc)

/-- One step of the fold that `NeuralNetwork.forward` amounts to: feed
the accumulated (output, counter) into the next layer's forward. -/
def stepFold (acc : Except Fault (MLArray × Nat)) (l : DenseLayer) :
    Except Fault (MLArray × Nat) :=
  acc.bind (fun q => (l.forward q.2 q.1).map (fun t => (t.1, t.2.2)))


lemma matmul_ok {a b : MLArray} {c : Nat} {m : Mat}
    (hm : matmulCheck a.data b.data = .ok m) :
    a.matmul b c = .ok (opNode m c ((a.id :: a.graph) ++ (b.id :: b.graph)), c + 1) := by
  unfold MLArray.matmul
  rw [hm]

lemma addB_ok {a b : MLArray} {c : Nat} {m : Mat}
    (hm : addCheck a.data b.data = .ok m) :
    a.addB b c = .ok (opNode m c ((a.id :: a.graph) ++ (b.id :: b.graph)), c + 1) := by
  unfold MLArray.addB
  rw [hm]

lemma forward_expl {l : DenseLayer} {c : Nat} {x : MLArray} {m zd : Mat}
    (hm : matmulCheck x.data l.weights.data = .ok m)
    (ha : addCheck m l.biases.data = .ok zd) :
    l.forward c x = .ok
      (opNode (l.activation_function zd) (c + 2)
        ((c + 1) :: ((c :: ((x.id :: x.graph) ++ (l.weights.id :: l.weights.graph))) ++
          (l.biases.id :: l.biases.graph))),
       l, c + 3) := by
  have h1 := @matmul_ok x l.weights c m hm
  have h2 := @addB_ok (opNode m c ((x.id :: x.graph) ++ (l.weights.id :: l.weights.graph)))
    l.biases (c + 1) zd ha
  simp only [DenseLayer.forward, h1]
  simp only [h2]
  simp [opNode]

lemma forward_ok_layer {l : DenseLayer} {c : Nat} {x r : MLArray}
    {l2 : DenseLayer} {c2 : Nat}
    (h : l.forward c x = .ok (r, l2, c2)) : l2 = l := by
  unfold DenseLayer.forward at h
  split at h
  · cases h
  · split at h
    · cases h
    · simp only [Except.ok.injEq, Prod.mk.injEq] at h
      exact h.2.1.symm

lemma netForward_ok_eq {c : Nat} {ls : List DenseLayer} {x out : MLArray}
    {ls' : List DenseLayer} {c' : Nat}
    (h : netForward c ls x = .ok (out, ls', c')) :
    ls.foldl stepFold (.ok (x, c)) = .ok (out, c') ∧ ls' = ls := by
  induction ls generalizing c x ls' out c' with
  | nil =>
      simp only [netForward, Except.ok.injEq, Prod.mk.injEq] at h
      obtain ⟨h1, h2, h3⟩ := h
      subst h1
      subst h3
      simp [← h2]
  | cons l rest ih =>
      simp only [netForward] at h
      split at h
      · cases h
      next x1 l1 c1 hf =>
        split at h
        · cases h
        next o2 r2 c2 hr =>
          simp only [Except.ok.injEq, Prod.mk.injEq] at h
          obtain ⟨ho, hls, hc⟩ := h
          subst ho
          subst hc
          subst hls
          obtain ⟨ihf, ihl⟩ := ih hr
          constructor
          · rw [List.foldl_cons, show stepFold (.ok (x, c)) l = .ok (x1, c1) by
              simp [stepFold, Except.bind, Except.map, hf], ihf]
          · rw [ihl, forward_ok_layer hf]

lemma netForward_append_err {c : Nat} {pre : List DenseLayer} {x x1 : MLArray}
    {pre1 : List DenseLayer} {c1 : Nat} {lbad : DenseLayer}
    {post : List DenseLayer} {f : Fault}
    (hpre : netForward c pre x = .ok (x1, pre1, c1))
    (hbad : lbad.forward c1 x1 = .error f) :
    netForward c (pre ++ lbad :: post) x = .error f := by
  induction pre generalizing c x pre1 with
  | nil =>
      simp only [netForward, Except.ok.injEq, Prod.mk.injEq] at hpre
      obtain ⟨hx, _, hc⟩ := hpre
      rw [List.nil_append, netForward, hx, hc, hbad]
  | cons l rest ih =>
      simp only [netForward] at hpre
      split at hpre
      · cases hpre
      next xa la ca hf =>
        split at hpre
        · cases hpre
        next ob rb cb hr =>
          simp only [Except.ok.injEq, Prod.mk.injEq] at hpre
          obtain ⟨hx, _, hc⟩ := hpre
          subst hx
          subst hc
          rw [List.cons_append]
          simp only [netForward, hf]
          rw [ih hr]

/-- Concrete 1-in 1-out layer used by witnesses (identity activation). -/
def lay0 : DenseLayer :=
  { weights := mkLeaf [[2]] 12, biases := mkLeaf [[3]] 13,
    activation_function := fun m => m }

/-- Second concrete layer used by witnesses. -/
def lay1 : DenseLayer :=
  { weights := mkLeaf [[1]] 14, biases := mkLeaf [[0]] 15,
    activation_function := fun m => m }

/-- Concrete input array used by witnesses. -/
def x0 : MLArray := mkLeaf [[1]] 10

/-- C2: `DenseLayer.forward(input)` returns a fresh Differentiable Array
whose payload is `activation(input @ weights + biases)`, whose recorded
subgraph depends on the input, the weights and the biases, and the call
leaves the layer's stored state (weights, biases, activation reference)
unchanged. -/
theorem denseLayer_forward_computes (l : DenseLayer) (c : Nat) (x r : MLArray)
    (l2 : DenseLayer) (c2 : Nat) (m zd : Mat)
    (hm : matmulCheck x.data l.weights.data = .ok m)
    (ha : addCheck m l.biases.data = .ok zd)
    (h : l.forward c x = .ok (r, l2, c2)) :
    r.data = l.activation_function zd
    ∧ x.id ∈ r.graph ∧ l.weights.id ∈ r.graph ∧ l.biases.id ∈ r.graph
    ∧ l2 = l := by
  rw [forward_expl hm ha] at h
  simp only [Except.ok.injEq, Prod.mk.injEq] at h
  obtain ⟨hr, hl, _⟩ := h
  subst hr
  refine ⟨rfl, ?_, ?_, ?_, hl.symm⟩ <;>
    simp [opNode, List.mem_cons, List.mem_append]

/-- Closed witness for `denseLayer_forward_computes` on a concrete
1×1-shaped layer and input. -/
theorem denseLayer_forward_computes_witness :
    (okD (lay0.forward 20 x0) (x0, lay0, 0)).1.data = lay0.activation_function [[5]]
    ∧ x0.id ∈ (okD (lay0.forward 20 x0) (x0, lay0, 0)).1.graph
    ∧ lay0.weights.id ∈ (okD (lay0.forward 20 x0) (x0, lay0, 0)).1.graph
    ∧ lay0.biases.id ∈ (okD (lay0.forward 20 x0) (x0, lay0, 0)).1.graph
    ∧ (okD (lay0.forward 20 x0) (x0, lay0, 0)).2.1 = lay0 :=
  denseLayer_forward_computes lay0 20 x0
    (okD (lay0.forward 20 x0) (x0, lay0, 0)).1
    (okD (lay0.forward 20 x0) (x0, lay0, 0)).2.1
    (okD (lay0.forward 20 x0) (x0, lay0, 0)).2.2
    [[2]] [[5]] (by decide) (by decide) (by rfl)

/-- C3: `NeuralNetwork.forward` is the left fold of the layers' forward
functions over the input in sequence order, returns the final layer's
output, and mutates no layer. -/
theorem netForward_is_fold (c : Nat) (ls : List DenseLayer) (x out : MLArray)
    (ls' : List DenseLayer) (c' : Nat)
    (h : netForward c ls x = .ok (out, ls', c')) :
    ls.foldl stepFold (.ok (x, c)) = .ok (out, c') ∧ ls' = ls :=
  netForward_ok_eq h

/-- Closed witness for `netForward_is_fold` on a concrete two-layer
network. -/
theorem netForward_is_fold_witness :
    [lay0, lay1].foldl stepFold (.ok (x0, 20)) =
      .ok ((okD (netForward 20 [lay0, lay1] x0) (x0, [], 0)).1,
           (okD (netForward 20 [lay0, lay1] x0) (x0, [], 0)).2.2)
    ∧ (okD (netForward 20 [lay0, lay1] x0) (x0, [], 0)).2.1 = [lay0, lay1] :=
  netForward_is_fold 20 [lay0, lay1] x0
    (okD (netForward 20 [lay0, lay1] x0) (x0, [], 0)).1
    (okD (netForward 20 [lay0, lay1] x0) (x0, [], 0)).2.1
    (okD (netForward 20 [lay0, lay1] x0) (x0, [], 0)).2.2
    (by rfl)

/-- C8: `NeuralNetwork.forward` is deterministic — two calls with equal
layer parameters and equal input yield equal outputs — and neither call
mutates the layer list. -/
theorem forward_deterministic_pure (c1 c2 : Nat) (ls1 ls2 : List DenseLayer)
    (x1 x2 o1 o2 : MLArray) (ls1b ls2b : List DenseLayer) (c1b c2b : Nat)
    (hls : ls1 = ls2) (hx : x1 = x2) (hc : c1 = c2)
    (h1 : netForward c1 ls1 x1 = .ok (o1, ls1b, c1b))
    (h2 : netForward c2 ls2 x2 = .ok (o2, ls2b, c2b)) :
    o1 = o2 ∧ c1b = c2b ∧ ls1b = ls1 ∧ ls2b = ls2 := by
  subst hls
  subst hx
  subst hc
  have e1 := netForward_ok_eq h1
  have e2 := netForward_ok_eq h2
  rw [h1] at h2
  simp only [Except.ok.injEq, Prod.mk.injEq] at h2
  exact ⟨h2.1, h2.2.2, e1.2, e2.2⟩

/-- Closed witness for `forward_deterministic_pure` on a concrete
one-layer network evaluated twice. -/
theorem forward_deterministic_pure_witness :
    (okD (netForward 20 [lay0] x0) (x0, [], 0)).1 =
      (okD (netForward 20 [lay0] x0) (x0, [], 0)).1
    ∧ (okD (netForward 20 [lay0] x0) (x0, [], 0)).2.2 =
      (okD (netForward 20 [lay0] x0) (x0, [], 0)).2.2
    ∧ (okD (netForward 20 [lay0] x0) (x0, [], 0)).2.1 = [lay0]
    ∧ (okD (netForward 20 [lay0] x0) (x0, [], 0)).2.1 = [lay0] :=
  forward_deterministic_pure 20 20 [lay0] [lay0] x0 x0
    (okD (netForward 20 [lay0] x0) (x0, [], 0)).1
    (okD (netForward 20 [lay0] x0) (x0, [], 0)).1
    (okD (netForward 20 [lay0] x0) (x0, [], 0)).2.1
    (okD (netForward 20 [lay0] x0) (x0, [], 0)).2.1
    (okD (netForward 20 [lay0] x0) (x0, [], 0)).2.2
    (okD (netForward 20 [lay0] x0) (x0, [], 0)).2.2
    rfl rfl rfl (by rfl) (by rfl)

lemma updateLayers_spec {σ : Type} (Cb : Collab σ) (e : Nat) (ls : List DenseLayer) :
    ∀ (i : Nat) (st : σ),
      (updateLayers Cb e ls i st).1.length = ls.length
      ∧ (updateLayers Cb e ls i st).2.2 = (List.range' i ls.length).map (fun j => Ev.upd e j)
      ∧ (updateLayers Cb e ls i st).1.map (fun l => l.activation_function)
          = ls.map (fun l => l.activation_function) := by
  induction ls with
  | nil => intro i st; simp [updateLayers]
  | cons l rest ih =>
      intro i st
      obtain ⟨h1, h2, h3⟩ := ih (i + 1) (DenseLayer.update Cb st l i).2
      refine ⟨by simp [updateLayers, h1], ?_, ?_⟩
      · simp only [updateLayers, List.length_cons, List.range'_succ, List.map_cons]
        rw [h2]
      · simp only [updateLayers, List.map_cons]
        rw [h3]
        simp [DenseLayer.update]

lemma updateLayers_getD {σ : Type} (Cb : Collab σ) (e : Nat) (ls : List DenseLayer) :
    ∀ (i : Nat) (st : σ) (j : Nat), j < ls.length →
      (updateLayers Cb e ls i st).1.getD j dfltLayer =
        { ls.getD j dfltLayer with
          weights := (Cb.optU (optStateSeq Cb (ls.take j) i st) (ls.getD j dfltLayer) (i + j)).1.1,
          biases := (Cb.optU (optStateSeq Cb (ls.take j) i st) (ls.getD j dfltLayer) (i + j)).1.2 } := by
  induction ls with
  | nil => intro i st j hj; cases hj
  | cons l rest ih =>
      intro i st j hj
      cases j with
      | zero =>
          simp [updateLayers, optStateSeq, DenseLayer.update]
      | succ j =>
          have hj2 : j < rest.length := Nat.lt_of_succ_lt_succ hj
          have hrec := ih (i + 1) (DenseLayer.update Cb st l i).2 j hj2
          simp only [updateLayers, List.getD_cons_succ, List.take_succ_cons, optStateSeq]
          rw [hrec, Nat.add_assoc, Nat.add_comm 1 j]

lemma resetPhase_cleared {σ : Type} (s : TrainState σ) : (resetPhase s).cleared := by
  refine ⟨⟨rfl, rfl⟩, ⟨rfl, rfl⟩, ?_⟩
  intro l hl
  simp only [resetPhase] at hl
  obtain ⟨l0, _, rfl⟩ := List.mem_map.1 hl
  exact ⟨⟨rfl, rfl⟩, ⟨rfl, rfl⟩⟩

lemma epochCore_ok {σ : Type} {Cb : Collab σ} {e : Nat} {s s3 : TrainState σ}
    {ld : Mat} {tr : List Ev}
    (h : epochCore Cb e s = (.ok (s3, ld), tr)) :
    tr = epochEvs e s.layers.length
    ∧ s3.cleared
    ∧ s3.layers.length = s.layers.length
    ∧ s3.layers.map (fun l => l.activation_function)
        = s.layers.map (fun l => l.activation_function) := by
  unfold epochCore at h
  split at h
  · cases h
  next y_pred lso c1 hf =>
    split at h
    · cases h
    next lossA hl =>
      simp only [Prod.mk.injEq, Except.ok.injEq] at h
      obtain ⟨⟨hs3, hld⟩, htr⟩ := h
      have hblen : (backwardStep Cb lossA { s with cnt := c1 }).layers.length
          = s.layers.length := by simp [backwardStep]
      have hbact : (backwardStep Cb lossA { s with cnt := c1 }).layers.map
          (fun l => l.activation_function) = s.layers.map (fun l => l.activation_function) := by
        simp [backwardStep, List.map_map]
      obtain ⟨hu1, hu2, hu3⟩ := updateLayers_spec Cb e
        (backwardStep Cb lossA { s with cnt := c1 }).layers 0
        (backwardStep Cb lossA { s with cnt := c1 }).opt
      refine ⟨?_, ?_, ?_, ?_⟩
      · rw [← htr, epochEvs, hu2, hblen, List.range_eq_range']
      · rw [← hs3]; exact resetPhase_cleared _
      · rw [← hs3]; simp [resetPhase, hu1, hblen]
      · rw [← hs3]
        simp only [resetPhase, List.map_map]
        calc ((updateLayers Cb e (backwardStep Cb lossA { s with cnt := c1 }).layers 0
                (backwardStep Cb lossA { s with cnt := c1 }).opt).1.map
              ((fun l => l.activation_function) ∘
                (fun l => { l with weights := l.weights.restart, biases := l.biases.restart })))
            = (updateLayers Cb e (backwardStep Cb lossA { s with cnt := c1 }).layers 0
                (backwardStep Cb lossA { s with cnt := c1 }).opt).1.map
                (fun l => l.activation_function) := by rfl
          _ = s.layers.map (fun l => l.activation_function) := by rw [hu3, hbact]

lemma epochStep_ok {σ : Type} {Cb : Collab σ} {total : Nat} {p : Option Nat} {e : Nat}
    {s s1 : TrainState σ} {tr : List Ev} {rp : List String}
    (h : epochStep Cb total p e s = (.ok s1, tr, rp)) :
    ∃ ld, epochCore Cb e s = (.ok (s1, ld), tr)
      ∧ rp = (if reportAt p e then [mkReport (e + 1) total ld] else []) := by
  unfold epochStep at h
  split at h
  · cases h
  next s3 ld tr2 hc =>
    cases p with
    | none =>
        simp only [Prod.mk.injEq, Except.ok.injEq] at h
        obtain ⟨h1, h2, h3⟩ := h
        subst h1
        subst h2
        exact ⟨ld, hc, by simp [reportAt, h3]⟩
    | some k =>
        simp only at h
        split at h
        · cases h
        next hk =>
          split at h
          next hmod =>
              simp only [Prod.mk.injEq, Except.ok.injEq] at h
              obtain ⟨h1, h2, h3⟩ := h
              subst h1
              subst h2
              exact ⟨ld, hc, by simp [reportAt, hmod, h3]⟩
          next hmod =>
              simp only [Prod.mk.injEq, Except.ok.injEq] at h
              obtain ⟨h1, h2, h3⟩ := h
              subst h1
              subst h2
              refine ⟨ld, hc, ?_⟩
              rw [if_neg]
              · exact h3.symm
              · simpa [reportAt] using hmod

lemma epochStep_err {σ : Type} (Cb : Collab σ) (total : Nat) (p : Option Nat) (e : Nat)
    (s : TrainState σ) {f : Fault} {tr : List Ev}
    (h : epochCore Cb e s = (.error f, tr)) :
    epochStep Cb total p e s = (.error f, tr, []) := by
  simp [epochStep, h]

lemma epochStep_divzero {σ : Type} (Cb : Collab σ) (total : Nat) (e : Nat)
    (s : TrainState σ) {s3 : TrainState σ} {ld : Mat} {tr : List Ev}
    (h : epochCore Cb e s = (.ok (s3, ld), tr)) :
    epochStep Cb total (some 0) e s = (.error Fault.divisionByZero, tr, []) := by
  simp [epochStep, h]

lemma trainLoop_err {σ : Type} (Cb : Collab σ) (total : Nat) (p : Option Nat)
    (rem e : Nat) (s : TrainState σ) {f : Fault} {tr : List Ev} {rp : List String}
    (h : epochStep Cb total p e s = (.error f, tr, rp)) :
    trainLoop Cb total p (rem + 1) e s = (.error f, tr, rp) := by
  simp [trainLoop, h]

lemma trainLoop_ok_inv {σ : Type} {Cb : Collab σ} {total : Nat} {p : Option Nat} :
    ∀ (rem e : Nat) (s s' : TrainState σ) (tr : List Ev) (rp : List String),
      trainLoop Cb total p rem e s = (.ok s', tr, rp) →
      tr = (List.range' e rem).flatMap (fun k => epochEvs k s.layers.length)
      ∧ s'.layers.length = s.layers.length
      ∧ ∃ L : Nat → Mat, rp = ((List.range' e rem).filter (fun k => reportAt p k)).map
          (fun k => mkReport (k + 1) total (L k)) := by
  intro rem
  induction rem with
  | zero =>
      intro e s s' tr rp h
      simp only [trainLoop, Prod.mk.injEq, Except.ok.injEq] at h
      obtain ⟨h1, h2, h3⟩ := h
      subst h1
      exact ⟨by simp [← h2, List.range'], rfl,
        fun _ => [], by simp [← h3, List.range']⟩
  | succ rem ih =>
      intro e s s' tr rp h
      simp only [trainLoop] at h
      split at h
      next f tr1 rp1 hstep =>
          simp only [Prod.mk.injEq] at h
          obtain ⟨h1, _⟩ := h
          cases h1
      next s1 tr1 rp1 hstep =>
          simp only [Prod.mk.injEq] at h
          obtain ⟨hres, htr, hrp⟩ := h
          have hq : trainLoop Cb total p rem (e + 1) s1 =
              (.ok s', (trainLoop Cb total p rem (e + 1) s1).2.1,
               (trainLoop Cb total p rem (e + 1) s1).2.2) := by
            rw [← hres]
          obtain ⟨ihtr, ihlen, L, ihrp⟩ := ih (e + 1) s1 s' _ _ hq
          obtain ⟨ld, hcore, hrp1⟩ := epochStep_ok hstep
          obtain ⟨htr1, _, hlen1, _⟩ := epochCore_ok hcore
          refine ⟨?_, ?_, ?_⟩
          · rw [← htr, List.range'_succ, List.flatMap_cons, htr1, ihtr, hlen1]
          · rw [ihlen, hlen1]
          · refine ⟨fun k => if k = e then ld else L k, ?_⟩
            rw [← hrp, List.range'_succ, List.filter_cons]
            have htail : ((List.range' (e + 1) rem).filter (fun k => reportAt p k)).map
                (fun k => mkReport (k + 1) total (if k = e then ld else L k))
                = ((List.range' (e + 1) rem).filter (fun k => reportAt p k)).map
                  (fun k => mkReport (k + 1) total (L k)) := by
              refine List.map_congr_left ?_
              intro a ha
              have hmem := List.mem_filter.1 ha
              have hge := (List.mem_range'_1.1 hmem.1).1
              have hne : a ≠ e := fun hae => by omega
              simp [hne]
            split
            next hrep =>
                rw [List.map_cons, htail, ← ihrp, hrp1, if_pos hrep]
                simp
            next hrep =>
                rw [htail, ← ihrp, hrp1, if_neg hrep]
                simp

lemma epochStep_indep {σ : Type} {Cb : Collab σ} {total : Nat} {p : Option Nat}
    {e : Nat} {s : TrainState σ} (hp : p ≠ some 0) :
    (epochStep Cb total p e s).1 = (epochStep Cb total none e s).1
    ∧ (epochStep Cb total p e s).2.1 = (epochStep Cb total none e s).2.1 := by
  cases hc : epochCore Cb e s with
  | mk r tr2 =>
    cases r with
    | error f => simp [epochStep, hc]
    | ok v =>
        obtain ⟨s3, ld⟩ := v
        cases p with
        | none => exact ⟨rfl, rfl⟩
        | some k =>
            have hk : (k == 0) = false := by
              cases k with
              | zero => exact absurd rfl hp
              | succ k => rfl
            simp only [epochStep, hc, hk, Bool.false_eq_true, if_false]
            split <;> simp

lemma trainLoop_indep {σ : Type} {Cb : Collab σ} {total : Nat} {p : Option Nat}
    (hp : p ≠ some 0) :
    ∀ (rem e : Nat) (s s' : TrainState σ) (tr : List Ev) (rp : List String),
      trainLoop Cb total p rem e s = (.ok s', tr, rp) →
      (trainLoop Cb total none rem e s).1 = .ok s'
      ∧ (trainLoop Cb total none rem e s).2.1 = tr := by
  intro rem
  induction rem with
  | zero =>
      intro e s s' tr rp h
      simp only [trainLoop, Prod.mk.injEq, Except.ok.injEq] at h
      obtain ⟨h1, h2, _⟩ := h
      subst h1
      exact ⟨rfl, by rw [← h2]; rfl⟩
  | succ rem ih =>
      intro e s s' tr rp h
      simp only [trainLoop] at h
      split at h
      next f tr1 rp1 hstep =>
          simp only [Prod.mk.injEq] at h
          obtain ⟨h1, _⟩ := h
          cases h1
      next s1 tr1 rp1 hstep =>
          simp only [Prod.mk.injEq] at h
          obtain ⟨hres, htr, _⟩ := h
          obtain ⟨hi1, hi2⟩ := @epochStep_indep σ Cb total p e s hp
          have hstepN : ∃ rpN, epochStep Cb total none e s = (.ok s1, tr1, rpN) := by
            refine ⟨(epochStep Cb total none e s).2.2, ?_⟩
            have e1 : (epochStep Cb total none e s).1 = .ok s1 := by
              rw [← hi1, hstep]
            have e2 : (epochStep Cb total none e s).2.1 = tr1 := by
              rw [← hi2, hstep]
            rw [← e1, ← e2]
          obtain ⟨rpN, hstepN⟩ := hstepN
          have hq : trainLoop Cb total p rem (e + 1) s1 =
              (.ok s', (trainLoop Cb total p rem (e + 1) s1).2.1,
               (trainLoop Cb total p rem (e + 1) s1).2.2) := by
            rw [← hres]
          obtain ⟨ih1, ih2⟩ := ih (e + 1) s1 s' _ _ hq
          simp only [trainLoop, hstepN]
          exact ⟨ih1, by rw [← htr, ih2]⟩

/-- Concrete collaborators used by witnesses: the loss returns the
prediction, backward yields a constant gradient, the optimizer returns
the parameters unchanged. -/
def collab0 : Collab Unit :=
  { lossF := fun a _ => .ok a,
    gradOf := fun _ _ => [[1]],
    optU := fun st l _ => ((l.weights, l.biases), st) }

/-- Concrete training state used by witnesses. -/
def st0 : TrainState Unit :=
  { X := mkLeaf [[1]] 10, y := mkLeaf [[1]] 11, layers := [lay0], opt := (), cnt := 20 }

/-- Layer whose 2×1 weights cannot be multiplied by a 1×1 input. -/
def layBad : DenseLayer :=
  { weights := mkLeaf [[1], [2]] 16, biases := mkLeaf [[0]] 17,
    activation_function := fun m => m }

/-- Training state whose single layer shape-faults on its input. -/
def st7 : TrainState Unit :=
  { X := mkLeaf [[1]] 10, y := mkLeaf [[1]] 11, layers := [layBad], opt := (), cnt := 20 }

/-- C1: a fault-free `train(X, y, epochs, print_every)` runs exactly
`epochs` iterations, each one passing strictly through forward, loss,
backward, per-layer update and gradient reset in that order, with no
other states and no early exit. -/
theorem train_runs_epochs_in_order {σ : Type} (Cb : Collab σ) (p : Option Nat)
    (epochs : Nat) (s s' : TrainState σ) (tr : List Ev) (rp : List String)
    (h : train Cb p epochs s = (.ok s', tr, rp)) :
    tr = (List.range epochs).flatMap (fun e => epochEvs e s.layers.length) := by
  have hinv := (trainLoop_ok_inv epochs 0 s s' tr rp h).1
  rw [List.range_eq_range']
  exact hinv

/-- Closed witness for `train_runs_epochs_in_order`: two epochs over a
one-layer network. -/
theorem train_runs_epochs_in_order_witness :
    (train collab0 none 2 st0).2.1 =
      (List.range 2).flatMap (fun e => epochEvs e st0.layers.length) :=
  train_runs_epochs_in_order collab0 none 2 st0
    (okD (train collab0 none 2 st0).1 st0)
    (train collab0 none 2 st0).2.1
    (train collab0 none 2 st0).2.2
    (by rfl)

/-- C4: every successfully completed epoch of `train` ends, after the
per-layer updates, with the gradient/subgraph state of `X`, `y` and every
layer's weights and biases reset: the state handed to the next epoch's
forward pass has zero gradient slots and empty recorded subgraphs
everywhere. -/
theorem epoch_reset_clears_gradients {σ : Type} (Cb : Collab σ) (total : Nat)
    (p : Option Nat) (e : Nat) (s s' : TrainState σ) (tr : List Ev)
    (rp : List String)
    (h : epochStep Cb total p e s = (.ok s', tr, rp)) :
    s'.cleared := by
  obtain ⟨ld, hcore, _⟩ := epochStep_ok h
  exact (epochCore_ok hcore).2.1

/-- Closed witness for `epoch_reset_clears_gradients` on a concrete
epoch. -/
theorem epoch_reset_clears_gradients_witness :
    TrainState.cleared (okD (epochStep collab0 1 none 0 st0).1 st0) :=
  epoch_reset_clears_gradients collab0 1 none 0 st0
    (okD (epochStep collab0 1 none 0 st0).1 st0)
    (epochStep collab0 1 none 0 st0).2.1
    (epochStep collab0 1 none 0 st0).2.2
    (by rfl)

/-- C5: the update step calls `layer.update(optimizer, idx)` for each
layer in index order starting at 0; each update replaces exactly the
layer's weights and biases with the pair the optimizer returned (the
activation reference is untouched); and an epoch preserves the layer
count and each index's activation reference, so the same index keeps
referring to the same layer across epochs. -/
theorem update_order_and_replacement {σ : Type} (Cb : Collab σ) (e : Nat)
    (ls : List DenseLayer) (st : σ) (j : Nat) (hj : j < ls.length)
    (total : Nat) (p : Option Nat) (s s' : TrainState σ) (tr : List Ev)
    (rp : List String)
    (h : epochStep Cb total p e s = (.ok s', tr, rp)) :
    (updateLayers Cb e ls 0 st).2.2 = (List.range ls.length).map (fun k => Ev.upd e k)
    ∧ (updateLayers Cb e ls 0 st).1.getD j dfltLayer =
        { ls.getD j dfltLayer with
          weights := (Cb.optU (optStateSeq Cb (ls.take j) 0 st) (ls.getD j dfltLayer) j).1.1,
          biases := (Cb.optU (optStateSeq Cb (ls.take j) 0 st) (ls.getD j dfltLayer) j).1.2 }
    ∧ s'.layers.length = s.layers.length
    ∧ s'.layers.map (fun l => l.activation_function)
        = s.layers.map (fun l => l.activation_function) := by
  obtain ⟨ld, hcore, _⟩ := epochStep_ok h
  obtain ⟨_, _, hlen, hact⟩ := epochCore_ok hcore
  obtain ⟨_, hevs, _⟩ := updateLayers_spec Cb e ls 0 st
  have hget := updateLayers_getD Cb e ls 0 st j hj
  refine ⟨?_, ?_, hlen, hact⟩
  · rw [hevs, List.range_eq_range']
  · rw [hget]
    simp

/-- Closed witness for `update_order_and_replacement` on a two-layer
list and a concrete epoch. -/
theorem update_order_and_replacement_witness :
    (updateLayers collab0 0 [lay0, lay1] 0 ()).2.2 =
      (List.range [lay0, lay1].length).map (fun k => Ev.upd 0 k)
    ∧ (updateLayers collab0 0 [lay0, lay1] 0 ()).1.getD 1 dfltLayer =
        { [lay0, lay1].getD 1 dfltLayer with
          weights := (collab0.optU (optStateSeq collab0 ([lay0, lay1].take 1) 0 ())
            ([lay0, lay1].getD 1 dfltLayer) 1).1.1,
          biases := (collab0.optU (optStateSeq collab0 ([lay0, lay1].take 1) 0 ())
            ([lay0, lay1].getD 1 dfltLayer) 1).1.2 }
    ∧ (okD (epochStep collab0 1 none 0 st0).1 st0).layers.length = st0.layers.length
    ∧ (okD (epochStep collab0 1 none 0 st0).1 st0).layers.map
        (fun l => l.activation_function)
        = st0.layers.map (fun l => l.activation_function) :=
  update_order_and_replacement collab0 0 [lay0, lay1] () 1 (by decide) 1 none st0
    (okD (epochStep collab0 1 none 0 st0).1 st0)
    (epochStep collab0 1 none 0 st0).2.1
    (epochStep collab0 1 none 0 st0).2.2
    (by rfl)

/-- C6: on a fault-free run, if `print_every` is unset one report per
epoch is emitted, otherwise (positive `print_every`) a report is emitted
in epoch `e` exactly when `(e+1) % print_every == 0`; every report is the
`"Epoch {i}/{epochs}, Loss: {value}"` line for its epoch; and reporting
changes no training state: the final state and the state-machine trace
are the same as with `print_every` unset. -/
theorem reporting_cadence_and_purity {σ : Type} (Cb : Collab σ) (p : Option Nat)
    (epochs : Nat) (s s' : TrainState σ) (tr : List Ev) (rp : List String)
    (hp : p ≠ some 0)
    (h : train Cb p epochs s = (.ok s', tr, rp)) :
    (∃ L : Nat → Mat, rp = ((List.range epochs).filter (fun e => reportAt p e)).map
        (fun e => mkReport (e + 1) epochs (L e)))
    ∧ (train Cb none epochs s).1 = .ok s'
    ∧ (train Cb none epochs s).2.1 = tr := by
  obtain ⟨_, _, L, hrp⟩ := trainLoop_ok_inv epochs 0 s s' tr rp h
  obtain ⟨hi1, hi2⟩ := trainLoop_indep hp epochs 0 s s' tr rp h
  exact ⟨⟨L, by rw [hrp, List.range_eq_range']⟩, hi1, hi2⟩

/-- Closed witness for `reporting_cadence_and_purity`: the spec's
`print_every = 10`, `epochs = 30` scenario (3 reports, epochs 10, 20,
30). -/
theorem reporting_cadence_and_purity_witness :
    (∃ L : Nat → Mat, (train collab0 (some 10) 30 st0).2.2 =
        ((List.range 30).filter (fun e => reportAt (some 10) e)).map
          (fun e => mkReport (e + 1) 30 (L e)))
    ∧ (train collab0 none 30 st0).1 =
        .ok (okD (train collab0 (some 10) 30 st0).1 st0)
    ∧ (train collab0 none 30 st0).2.1 = (train collab0 (some 10) 30 st0).2.1 :=
  reporting_cadence_and_purity collab0 (some 10) 30 st0
    (okD (train collab0 (some 10) 30 st0).1 st0)
    (train collab0 (some 10) 30 st0).2.1
    (train collab0 (some 10) 30 st0).2.2
    (by decide) (by rfl)

/-- C7: a shape-incompatibility fault raised in forward composition
propagates unhandled through `DenseLayer.forward`, `NeuralNetwork.forward`
and `NeuralNetwork.train`, and a loss-computation fault propagates the
same way: nothing is caught or retried, and the whole train call aborts
on the first fault, running no further epochs. -/
theorem fault_propagation_aborts_train {σ : Type} (Cb : Collab σ)
    (total rem e : Nat) (p : Option Nat) (s : TrainState σ)
    (pre post pre1 : List DenseLayer) (lbad : DenseLayer) (x1 : MLArray)
    (c1 : Nat) (f : Fault)
    (hsplit : s.layers = pre ++ lbad :: post)
    (hpre : netForward s.cnt pre s.X = .ok (x1, pre1, c1))
    (hbad : lbad.forward c1 x1 = .error f) :
    netForward s.cnt s.layers s.X = .error f
    ∧ epochStep Cb total p e s = (.error f, [Ev.fwd e], [])
    ∧ trainLoop Cb total p (rem + 1) e s = (.error f, [Ev.fwd e], [])
    ∧ (∀ (s2 : TrainState σ) (yp : MLArray) (lso : List DenseLayer) (c2 : Nat)
        (f2 : Fault),
        netForward s2.cnt s2.layers s2.X = .ok (yp, lso, c2) →
        Cb.lossF yp s2.y = .error f2 →
        epochStep Cb total p e s2 = (.error f2, [Ev.fwd e, Ev.lossE e], [])
        ∧ trainLoop Cb total p (rem + 1) e s2
            = (.error f2, [Ev.fwd e, Ev.lossE e], [])) := by
  have hnf : netForward s.cnt s.layers s.X = .error f := by
    rw [hsplit]
    exact netForward_append_err hpre hbad
  have hcore : epochCore Cb e s = (.error f, [Ev.fwd e]) := by
    simp [epochCore, hnf]
  have hstep := epochStep_err Cb total p e s hcore
  refine ⟨hnf, hstep, trainLoop_err Cb total p rem e s hstep, ?_⟩
  intro s2 yp lso c2 f2 hfwd2 hloss2
  have hcore2 : epochCore Cb e s2 = (.error f2, [Ev.fwd e, Ev.lossE e]) := by
    simp [epochCore, hfwd2, hloss2]
  have hstep2 := epochStep_err Cb total p e s2 hcore2
  exact ⟨hstep2, trainLoop_err Cb total p rem e s2 hstep2⟩

/-- Closed witness for `fault_propagation_aborts_train`: a 1×1 input fed
to a layer with 2×1 weights. -/
theorem fault_propagation_aborts_train_witness :
    netForward st7.cnt st7.layers st7.X = .error Fault.shapeMismatch
    ∧ epochStep collab0 3 none 0 st7 = (.error Fault.shapeMismatch, [Ev.fwd 0], [])
    ∧ trainLoop collab0 3 none (2 + 1) 0 st7
        = (.error Fault.shapeMismatch, [Ev.fwd 0], [])
    ∧ (∀ (s2 : TrainState Unit) (yp : MLArray) (lso : List DenseLayer) (c2 : Nat)
        (f2 : Fault),
        netForward s2.cnt s2.layers s2.X = .ok (yp, lso, c2) →
        collab0.lossF yp s2.y = .error f2 →
        epochStep collab0 3 none 0 s2 = (.error f2, [Ev.fwd 0, Ev.lossE 0], [])
        ∧ trainLoop collab0 3 none (2 + 1) 0 s2
            = (.error f2, [Ev.fwd 0, Ev.lossE 0], [])) :=
  fault_propagation_aborts_train collab0 3 2 0 none st7 [] [] [] layBad st7.X
    st7.cnt Fault.shapeMismatch rfl (by rfl) (by rfl)

/-- C9: `print_every = 0` is not a silent mode: the `None` check does not
match `0`, so `0` reaches `(epoch+1) % print_every`, and with at least
one epoch the first epoch's reporting step raises the division-by-zero
fault after the epoch's five state-machine steps already ran; the whole
train call aborts there with no report emitted. -/
theorem print_every_zero_divzero {σ : Type} (Cb : Collab σ) (rem : Nat)
    (s s3 : TrainState σ) (ld : Mat) (tr : List Ev)
    (hcore : epochCore Cb 0 s = (.ok (s3, ld), tr)) :
    epochStep Cb (rem + 1) (some 0) 0 s = (.error Fault.divisionByZero, tr, [])
    ∧ train Cb (some 0) (rem + 1) s = (.error Fault.divisionByZero, tr, [])
    ∧ tr = epochEvs 0 s.layers.length := by
  have hstep := epochStep_divzero Cb (rem + 1) 0 s hcore
  exact ⟨hstep, trainLoop_err Cb (rem + 1) (some 0) rem 0 s hstep,
    (epochCore_ok hcore).1⟩

/-- Closed witness for `print_every_zero_divzero` on a concrete run with
`epochs = 1`. -/
theorem print_every_zero_divzero_witness :
    epochStep collab0 (0 + 1) (some 0) 0 st0
      = (.error Fault.divisionByZero, (epochCore collab0 0 st0).2, [])
    ∧ train collab0 (some 0) (0 + 1) st0
      = (.error Fault.divisionByZero, (epochCore collab0 0 st0).2, [])
    ∧ (epochCore collab0 0 st0).2 = epochEvs 0 st0.layers.length :=
  print_every_zero_divzero collab0 0 st0
    (okD (epochCore collab0 0 st0).1 (st0, [])).1
    (okD (epochCore collab0 0 st0).1 (st0, [])).2
    (epochCore collab0 0 st0).2
    (by rfl)

/-- C10: constructing a `NeuralNetwork` with `optimizer=None` installs a
freshly created SGD instance, while omitting the argument installs the
single SGD instance created once at class-definition time, which is
therefore shared among all networks constructed without an explicit
optimizer argument. -/
theorem optimizer_default_sharing (a0 : Nat) (ls1 ls2 ls3 ls4 : List DenseLayer)
    (h : 0 < a0) :
    (NeuralNetwork.init a0 ls1 OptArg.omitted).1.optimizerId = sgdDefaultId
    ∧ (NeuralNetwork.init a0 ls2 OptArg.omitted).1.optimizerId = sgdDefaultId
    ∧ (NeuralNetwork.init a0 ls3 OptArg.explicitNone).1.optimizerId ≠ sgdDefaultId
    ∧ (NeuralNetwork.init (NeuralNetwork.init a0 ls3 OptArg.explicitNone).2 ls4
        OptArg.explicitNone).1.optimizerId ≠ sgdDefaultId
    ∧ (NeuralNetwork.init a0 ls3 OptArg.explicitNone).1.optimizerId ≠
        (NeuralNetwork.init (NeuralNetwork.init a0 ls3 OptArg.explicitNone).2 ls4
          OptArg.explicitNone).1.optimizerId := by
  refine ⟨rfl, rfl, ?_, ?_, ?_⟩
  · show a0 ≠ 0
    omega
  · show a0 + 1 ≠ 0
    omega
  · show a0 ≠ a0 + 1
    omega

/-- Closed witness for `optimizer_default_sharing` with the first free
allocation number 1. -/
theorem optimizer_default_sharing_witness :
    (NeuralNetwork.init 1 [] OptArg.omitted).1.optimizerId = sgdDefaultId
    ∧ (NeuralNetwork.init 1 [] OptArg.omitted).1.optimizerId = sgdDefaultId
    ∧ (NeuralNetwork.init 1 [] OptArg.explicitNone).1.optimizerId ≠ sgdDefaultId
    ∧ (NeuralNetwork.init (NeuralNetwork.init 1 [] OptArg.explicitNone).2 []
        OptArg.explicitNone).1.optimizerId ≠ sgdDefaultId
    ∧ (NeuralNetwork.init 1 [] OptArg.explicitNone).1.optimizerId ≠
        (NeuralNetwork.init (NeuralNetwork.init 1 [] OptArg.explicitNone).2 []
          OptArg.explicitNone).1.optimizerId :=
  optimizer_default_sharing 1 [] [] [] [] (by decide)

end NNFS
